import Mathlib

/-!
Verification of the request-dispatch pipeline of a multi-tenant HTTP reverse
proxy written in Go.  The development shallowly embeds the host router, the
load balancer (upstream selector), the forwarders, the path router and the
timeout guard, and proves the specified properties about the embedding.

Sources embedded:
- internal/application/host/handler.go  (HostRouter)
- internal/application/site/handler.go  (Max, LoadBalancer, NewLoadBalancer,
  LoadBalancer.Next, NewLoadBalancedProxy, NewLoadBalancedProxyWithHeaders,
  NewSiteHandler)
Go standard-library collaborators (net/url.Parse, net/http.ServeMux,
net/http.TimeoutHandler, http.Error) are modelled from their documented
semantics where the repository delegates to them.
-/

namespace ReverseProxy

/-- URLs as in Go net/url.URL, restricted to the fields the proxy reads and
writes: Scheme, Host, Path, RawPath and RawQuery. -/
structure URL where
  scheme : String := ""
  host : String := ""
  path : String := ""
  rawPath : String := ""
  rawQuery : String := ""
deriving Repr, DecidableEq, Inhabited

/-- Model of Go net/url.Parse restricted to the URL shapes this repository
feeds it: the empty string (which Go parses successfully into a zero URL),
absolute URLs of the form scheme://host[/path][?query], and plain relative
paths.  A leading colon (as in the test input "://invalid-url") makes Go
report a missing protocol scheme, modelled as parse failure.  Exotic forms
(opaque URLs, userinfo, fragments, percent escapes) are outside the model. -/
def parseURL (s : String) : Option URL :=
  let cs := s.data
  if cs = [] then some {}
  else
    let schemeL := cs.takeWhile (fun c => !(c == ':'))
    if schemeL.length = cs.length then
      some { path := s }
    else if schemeL = [] then none
    else
      match cs.drop (schemeL.length + 1) with
      | '/' :: '/' :: rem =>
        let hostL := rem.takeWhile (fun c => !(c == '/' || c == '?'))
        let after := rem.drop hostL.length
        let pathL := after.takeWhile (fun c => !(c == '?'))
        let queryL := (after.drop pathL.length).drop 1
        some { scheme := String.mk schemeL, host := String.mk hostL,
               path := String.mk pathL, rawQuery := String.mk queryL }
      | rest => some { scheme := String.mk schemeL, path := String.mk rest }

example : parseURL "http://localhost:3000" =
    some { scheme := "http", host := "localhost:3000" } := by decide
example : parseURL "http://b/base?x=1" =
    some { scheme := "http", host := "b", path := "/base", rawQuery := "x=1" } := by
  decide
example : parseURL "://invalid-url" = none := by decide

/-- The LoadBalancer of internal/application/site/handler.go: the parsed
upstream URLs, the algorithm string, and the shared round-robin cursor
(a Go uint64, represented as a natural number kept below 2^64). -/
structure LoadBalancer where
  upstreams : List URL
  algorithm : String
  currentIndex : Nat
deriving Repr, DecidableEq, Inhabited

/-- Reduction modulo 2^64: the wrap-around of Go uint64 arithmetic. -/
def uint64 (n : Nat) : Nat := n % 2 ^ 64

/-- The parse loop of NewLoadBalancer: parse each upstream string in order,
failing with the Go error message on the first unparsable one. -/
def parseUpstreams : List String → Except String (List URL)
  | [] => Except.ok []
  | u :: rest =>
    match parseURL u with
    | none => Except.error ("invalid upstream URL: " ++ u)
    | some url => (parseUpstreams rest).map (fun us => url :: us)

/-- NewLoadBalancer (internal/application/site/handler.go): parses every
upstream, then rejects an empty upstream list with the error
"no valid upstreams provided"; otherwise the cursor starts at 0. -/
def NewLoadBalancer (upstreams : List String) (algorithm : String) :
    Except String LoadBalancer :=
  match parseUpstreams upstreams with
  | Except.error e => Except.error e
  | Except.ok us =>
    if us.length = 0 then Except.error "no valid upstreams provided"
    else Except.ok { upstreams := us, algorithm := algorithm, currentIndex := 0 }

/-- LoadBalancer.Next (internal/application/site/handler.go).  The round-robin
branch (taken for "round-robin", "" and any unknown algorithm) reads the
cursor, advances it with uint64 wrap-around, and indexes the upstream list by
the cursor modulo its length.  The "random" branch indexes by the current
wall-clock nanosecond timestamp modulo the length and leaves the cursor
untouched.  Indexing an empty list (Go: a panic from index out of range or
modulo by zero) is modelled as none. -/
def LoadBalancer.Next (lb : LoadBalancer) (nowUnixNano : Nat) :
    Option (URL × LoadBalancer) :=
  if lb.algorithm = "round-robin" ∨ lb.algorithm = "" then
    let index := uint64 lb.currentIndex
    let lb1 := { lb with currentIndex := uint64 (lb.currentIndex + 1) }
    if lb.upstreams.length = 0 then none
    else (lb.upstreams.get? (index % lb.upstreams.length)).map (fun u => (u, lb1))
  else if lb.algorithm = "random" then
    if lb.upstreams.length = 0 then none
    else (lb.upstreams.get? (nowUnixNano % lb.upstreams.length)).map
      (fun u => (u, lb))
  else
    let index := uint64 lb.currentIndex
    let lb1 := { lb with currentIndex := uint64 (lb.currentIndex + 1) }
    if lb.upstreams.length = 0 then none
    else (lb.upstreams.get? (index % lb.upstreams.length)).map (fun u => (u, lb1))

/-- k consecutive sequential calls to Next (no concurrent interleaving),
collecting the returned upstreams in order together with the final balancer
state; none if any call would panic. -/
def LoadBalancer.NextSeq (lb : LoadBalancer) (now : Nat) :
    Nat → Option (List URL × LoadBalancer)
  | 0 => some ([], lb)
  | k + 1 =>
    match lb.Next now with
    | none => none
    | some (u, lb1) =>
      match lb1.NextSeq now k with
      | none => none
      | some (us, lbf) => some (u :: us, lbf)

example :
    (NewLoadBalancer ["http://a", "http://b", "http://c"] "round-robin").toOption.bind
      (fun lb => (lb.NextSeq 0 4).map (fun p => p.1.map URL.host)) =
    some ["a", "b", "c", "a"] := by decide

/-- A concrete one-upstream balancer with an unknown algorithm string, as
NewLoadBalancer builds it from ["http://a"]. -/
def lbWeird : LoadBalancer :=
  { upstreams := [{ scheme := "http", host := "a" }], algorithm := "weird",
    currentIndex := 0 }

/-- Go http.Header.Set semantics on a header map: replace the value under the
key (keys are taken as already canonicalized). -/
def setHeader (h : String → Option String) (k v : String) :
    String → Option String :=
  fun k1 => if k1 = k then some v else h k1

/-- A Go for-range loop over a header map calling Header.Set for each entry
(map iteration order is irrelevant to the result because each key occurs
once; the model applies entries in list order). -/
def applyHeaders (pairs : List (String × String)) (h : String → Option String) :
    String → Option String :=
  pairs.foldl (fun acc kv => setHeader acc kv.1 kv.2) h

/-- An inbound HTTP request as the proxy reads it: method, Host header, URL
path / raw query / raw path, and a header map. -/
structure Request where
  method : String := "GET"
  host : String := ""
  path : String := ""
  rawQuery : String := ""
  rawPath : String := ""
  headers : String → Option String := fun _ => none

/-- A response as written to the client: status code, response headers (in
write order, multi-valued entries kept), and body. -/
structure Response where
  status : Nat
  headers : List (String × String) := []
  body : String := ""
deriving Repr, DecidableEq, Inhabited

/-- The outbound request the forwarder issues to a backend. -/
structure OutRequest where
  url : URL
  method : String
  headers : String → Option String

/-- A backend response as received over the transport. -/
structure UpstreamResponse where
  status : Nat
  headers : List (String × String) := []
  body : String := ""
deriving Repr, DecidableEq, Inhabited

/-- Model of Go http.Error(w, msg, code): the status code with the message as
the plain-text body (Go appends a trailing newline to the message; bodies are
modelled up to that newline). -/
def httpError (msg : String) (code : Nat) : Response :=
  { status := code, body := msg }

/-- Model of Go http.NotFound: http.Error with "404 page not found", 404. -/
def httpNotFound : Response := httpError "404 page not found" 404

/-- HostRouter (internal/application/host/handler.go): splits the request
Host header on ":" and keeps the first component to strip any port, looks the
result up in the site table — but the if-branch that receives the lookup
result has an empty body, so the handler then unconditionally replies with
http.NotFound. -/
def HostRouter (sites : List (String × (Request → Response))) (r : Request) :
    Response :=
  let host := String.mk (r.host.data.takeWhile (fun c => !(c == ':')))
  let _found := sites.lookup host
  httpNotFound

/-- The site table of the "route to correct handler" test in
host/handler.go. -/
def exampleSites : List (String × (Request → Response)) :=
  [("example.com", fun _ => { status := 200, body := "Example site" })]

/-- The request of that test: GET http://example.com/path. -/
def exampleRequest : Request := { method := "GET", host := "example.com", path := "/path" }

/-- internal/models/global config.go: HealthCheck (declared, never wired into
selection logic). -/
structure HealthCheck where
  path : String := ""
  interval : String := ""
  timeout : String := ""
deriving Repr, DecidableEq, Inhabited

/-- internal/models/global config.go: LoadBalance. -/
structure LoadBalance where
  algorithm : String := ""
  healthCheck : Option HealthCheck := none
deriving Repr, DecidableEq, Inhabited

/-- internal/models/global config.go: ProxyPath (PathBase plus the path
pattern).  Header maps are association lists with each key occurring once. -/
structure ProxyPath where
  path : String := ""
  upstream : String := ""
  upstreams : List String := []
  headers : List (String × String) := []
  loadBalance : Option LoadBalance := none
deriving Repr, DecidableEq, Inhabited

/-- internal/models/global config.go: Proxy (PathBase plus the path list). -/
structure Proxy where
  upstream : String := ""
  upstreams : List String := []
  headers : List (String × String) := []
  loadBalance : Option LoadBalance := none
  paths : List ProxyPath := []
deriving Repr, DecidableEq, Inhabited

/-- Site timeouts in nanoseconds (Go time.Duration is an int64 count of
nanoseconds). -/
structure Timeouts where
  read : Int := 0
  write : Int := 0
deriving Repr, DecidableEq, Inhabited

/-- internal/models/global config.go: SiteConfig. -/
structure SiteConfig where
  domain : String := ""
  listen : String := ""
  proxy : Proxy := {}
  timeouts : Timeouts := {}
deriving Repr, DecidableEq, Inhabited

/-- NewLoadBalancedProxy (internal/application/site/handler.go): the
per-request behavior of the handler it returns.  The pooled HTTP transport is
abstracted as a round-trip oracle rt (error = transport-level failure).  The
result is the response written to the client, the balancer state after the
single Next call, and the list of outbound requests handed to the transport —
the code performs exactly one transport.RoundTrip per request.  none models
the panic of selecting from an empty upstream list. -/
def NewLoadBalancedProxy (lb : LoadBalancer) (cfg : SiteConfig)
    (rt : OutRequest → Except String UpstreamResponse) (r : Request)
    (now : Nat) : Option (Response × LoadBalancer × List OutRequest) :=
  match lb.Next now with
  | none => none
  | some (target, lb1) =>
    let outReq : OutRequest :=
      { url := { scheme := target.scheme, host := target.host, path := r.path,
                 rawPath := if target.rawPath ≠ "" then target.rawPath
                            else r.rawPath,
                 rawQuery := if target.rawQuery = "" ∨ r.rawQuery = "" then
                               target.rawQuery
                             else target.rawQuery ++ "&" ++ r.rawQuery },
        method := r.method,
        headers := applyHeaders cfg.proxy.headers r.headers }
    match rt outReq with
    | Except.error _ => some (httpError "Upstream error" 502, lb1, [outReq])
    | Except.ok resp =>
      some ({ status := resp.status, headers := resp.headers,
              body := resp.body }, lb1, [outReq])

/-- NewLoadBalancedProxyWithHeaders (internal/application/site/handler.go):
as NewLoadBalancedProxy, but after the site-level (global) headers it also
applies the path-level headers, each with Header.Set. -/
def NewLoadBalancedProxyWithHeaders (lb : LoadBalancer) (cfg : SiteConfig)
    (pathCfg : ProxyPath) (rt : OutRequest → Except String UpstreamResponse)
    (r : Request) (now : Nat) :
    Option (Response × LoadBalancer × List OutRequest) :=
  match lb.Next now with
  | none => none
  | some (target, lb1) =>
    let outReq : OutRequest :=
      { url := { scheme := target.scheme, host := target.host, path := r.path,
                 rawPath := if target.rawPath ≠ "" then target.rawPath
                            else r.rawPath,
                 rawQuery := if target.rawQuery = "" ∨ r.rawQuery = "" then
                               target.rawQuery
                             else target.rawQuery ++ "&" ++ r.rawQuery },
        method := r.method,
        headers := applyHeaders pathCfg.headers
          (applyHeaders cfg.proxy.headers r.headers) }
    match rt outReq with
    | Except.error _ => some (httpError "Upstream error" 502, lb1, [outReq])
    | Except.ok resp =>
      some ({ status := resp.status, headers := resp.headers,
              body := resp.body }, lb1, [outReq])

/-- The Director header application of the single-upstream branch for a
configured path in NewSiteHandler: global (site-level) headers first, then
path-specific headers, each with Header.Set. -/
def singleUpstreamPathHeaders (cfg : SiteConfig) (pathCfg : ProxyPath)
    (h : String → Option String) : String → Option String :=
  applyHeaders pathCfg.headers (applyHeaders cfg.proxy.headers h)

/-- Max (internal/application/site/handler.go): the larger of two
durations. -/
def Max (a b : Int) : Int := if a > b then a else b

/-- Model of Go net/http.TimeoutHandler h dt msg.  The wrapped handler is a
function from the request to its response together with the time it takes to
produce it; when that time exceeds the deadline, the client sees
503 Service Unavailable with msg as the body, otherwise the handler response
is relayed unchanged. -/
def TimeoutHandler (h : Request → Response × Int) (dt : Int) (msg : String)
    (r : Request) : Response :=
  if (h r).2 > dt then { status := 503, body := msg } else (h r).1

/-- The algorithm defaulting logic repeated in NewSiteHandler: "round-robin"
unless a load-balance config with a non-empty algorithm string is present. -/
def chooseAlgorithm (lbc : Option LoadBalance) : String :=
  match lbc with
  | some c => if c.algorithm ≠ "" then c.algorithm else "round-robin"
  | none => "round-robin"

/-- The proxy a NewSiteHandler branch builds for a site or path: a
load-balanced proxy over a LoadBalancer (with or without path headers) or a
single-host reverse proxy to a parsed target. -/
inductive BuiltProxy where
  | lbProxy (lb : LoadBalancer)
  | lbProxyWithHeaders (lb : LoadBalancer) (pathIndex : Nat)
  | single (target : URL)
  | singleWithPathHeaders (target : URL) (pathIndex : Nat)
deriving Repr, DecidableEq

/-- One registered path of the paths branch of NewSiteHandler: the pattern,
the proxy built for it, and the TimeoutHandler deadline and message wrapped
around it. -/
structure PathEntry where
  path : String
  proxy : BuiltProxy
  timeout : Int
  timeoutMsg : String
deriving Repr, DecidableEq

/-- What NewSiteHandler builds: either the paths branch (a mux of
timeout-wrapped per-path proxies, mux dispatch modelled by muxServe over
registerPaths) or the fallback branch (one timeout-wrapped proxy). -/
inductive SiteHandlerBuild where
  | pathsBuild (entries : List PathEntry)
  | fallback (proxy : BuiltProxy) (timeout : Int) (timeoutMsg : String)
deriving Repr, DecidableEq

/-- One iteration of the paths loop of NewSiteHandler: path-local upstreams
first, then site-level upstreams, then the single-upstream fallback; the
built proxy is wrapped with the per-site TimeoutHandler. -/
def buildPathEntry (cfg : SiteConfig) (i : Nat) (pathCfg : ProxyPath) :
    Except String PathEntry :=
  if pathCfg.upstreams ≠ [] then
    match NewLoadBalancer pathCfg.upstreams
        (chooseAlgorithm pathCfg.loadBalance) with
    | Except.error e =>
      Except.error ("failed to create load balancer for path " ++
        pathCfg.path ++ ": " ++ e)
    | Except.ok lb =>
      Except.ok { path := pathCfg.path,
                  proxy := BuiltProxy.lbProxyWithHeaders lb i,
                  timeout := Max cfg.timeouts.read cfg.timeouts.write,
                  timeoutMsg := "Request timeout" }
  else if cfg.proxy.upstreams ≠ [] then
    match NewLoadBalancer cfg.proxy.upstreams
        (chooseAlgorithm cfg.proxy.loadBalance) with
    | Except.error e =>
      Except.error ("failed to create load balancer for path " ++
        pathCfg.path ++ ": " ++ e)
    | Except.ok lb =>
      Except.ok { path := pathCfg.path,
                  proxy := BuiltProxy.lbProxyWithHeaders lb i,
                  timeout := Max cfg.timeouts.read cfg.timeouts.write,
                  timeoutMsg := "Request timeout" }
  else
    match parseURL pathCfg.upstream with
    | none => Except.error ("invalid upstream for path " ++ pathCfg.path)
    | some target =>
      Except.ok { path := pathCfg.path,
                  proxy := BuiltProxy.singleWithPathHeaders target i,
                  timeout := Max cfg.timeouts.read cfg.timeouts.write,
                  timeoutMsg := "Request timeout" }

/-- The paths loop of NewSiteHandler, indexed from i. -/
def buildPathEntries (cfg : SiteConfig) :
    List ProxyPath → Nat → Except String (List PathEntry)
  | [], _ => Except.ok []
  | pcfg :: rest, i =>
    match buildPathEntry cfg i pcfg with
    | Except.error e => Except.error e
    | Except.ok e =>
      match buildPathEntries cfg rest (i + 1) with
      | Except.error e1 => Except.error e1
      | Except.ok es => Except.ok (e :: es)

/-- NewSiteHandler (internal/application/site/handler.go): the paths branch
when any path is configured; otherwise the load-balancing branch when
site-level upstreams exist; otherwise the single-upstream branch when a
non-empty upstream string exists; otherwise the build-time error
"no upstream or upstreams configured". -/
def NewSiteHandler (cfg : SiteConfig) : Except String SiteHandlerBuild :=
  if cfg.proxy.paths ≠ [] then
    match buildPathEntries cfg cfg.proxy.paths 0 with
    | Except.error e => Except.error e
    | Except.ok entries => Except.ok (SiteHandlerBuild.pathsBuild entries)
  else if cfg.proxy.upstreams ≠ [] then
    match NewLoadBalancer cfg.proxy.upstreams
        (chooseAlgorithm cfg.proxy.loadBalance) with
    | Except.error e =>
      Except.error ("failed to create load balancer for " ++ cfg.domain ++
        ": " ++ e)
    | Except.ok lb =>
      Except.ok (SiteHandlerBuild.fallback (BuiltProxy.lbProxy lb)
        (Max cfg.timeouts.read cfg.timeouts.write) "Request timeout")
  else if cfg.proxy.upstream ≠ "" then
    match parseURL cfg.proxy.upstream with
    | none => Except.error ("invalid upstream for " ++ cfg.domain)
    | some target =>
      Except.ok (SiteHandlerBuild.fallback (BuiltProxy.single target)
        (Max cfg.timeouts.read cfg.timeouts.write) "Request timeout")
  else
    Except.error ("no upstream or upstreams configured for " ++ cfg.domain)

/-- The TimeoutHandler deadline/message pairs wrapped around the proxies of a
site handler build. -/
def guardDeadlines : SiteHandlerBuild → List (Int × String)
  | SiteHandlerBuild.pathsBuild entries =>
    entries.map (fun e => (e.timeout, e.timeoutMsg))
  | SiteHandlerBuild.fallback _ t msg => [(t, msg)]

/-- Whether a pattern ends in a slash (a subtree pattern in Go ServeMux
terms). -/
def lastIsSlash (p : String) : Bool := p.data.getLast? == some '/'

/-- Model of Go net/http ServeMux (Go 1.21): the exact-pattern map m and the
list es of subtree (slash-terminated) patterns kept sorted by pattern length,
longest first.  Patterns are path-only (no host patterns) and request paths
are taken as already cleaned — the repository registers site route paths and
ServeMux cleans inbound paths before matching. -/
structure ServeMux (α : Type) where
  m : List (String × α) := []
  es : List (String × α) := []
deriving Repr, DecidableEq

/-- ServeMux.appendSorted: insert a pattern entry before the first strictly
shorter pattern, keeping es sorted by length, longest first. -/
def appendSorted {α : Type} (es : List (String × α)) (p : String) (h : α) :
    List (String × α) :=
  match es with
  | [] => [(p, h)]
  | (q, g) :: rest =>
    if q.length < p.length then (p, h) :: (q, g) :: rest
    else (q, g) :: appendSorted rest p h

/-- ServeMux.Handle: rejects the empty pattern and duplicate registrations
(Go panics, modelled as none); registers the pattern in m and, when it ends
in a slash, also in es via appendSorted. -/
def muxHandle {α : Type} (mux : ServeMux α) (p : String) (h : α) :
    Option (ServeMux α) :=
  if p = "" then none
  else if (mux.m.lookup p).isSome then none
  else some { m := (p, h) :: mux.m,
              es := if lastIsSlash p then appendSorted mux.es p h
                    else mux.es }

/-- The mux.Handle registration loop of the paths branch of NewSiteHandler:
each configured path pattern is registered in declaration order; the handler
value is modelled by the registering route's index. -/
def registerPathsFrom : List String → Nat → ServeMux Nat → Option (ServeMux Nat)
  | [], _, mux => some mux
  | p :: rest, i, mux =>
    match muxHandle mux p i with
    | none => none
    | some mux1 => registerPathsFrom rest (i + 1) mux1

/-- registerPathsFrom starting at index 0 on the empty mux. -/
def registerPaths (paths : List String) : Option (ServeMux Nat) :=
  registerPathsFrom paths 0 {}

/-- The scan of ServeMux.match over es: the first (hence longest) subtree
pattern that is a prefix of the path. -/
def firstMatching {α : Type} : List (String × α) → String → Option (α × String)
  | [], _ => none
  | (q, h) :: rest, p =>
    if q.data.isPrefixOf p.data then some (h, q) else firstMatching rest p

/-- ServeMux.shouldRedirectRLocked for path-only patterns: no redirect when
the path itself is registered or empty; otherwise redirect when path+"/" is
registered and the path does not already end in a slash. -/
def shouldRedirect {α : Type} (mux : ServeMux α) (p : String) : Bool :=
  if (mux.m.lookup p).isSome then false
  else if p = "" then false
  else if (mux.m.lookup (p ++ "/")).isSome then !(lastIsSlash p)
  else false

/-- The outcome of ServeMux dispatch: a handler (with its pattern), a
301 Moved Permanently redirect to location loc, or the 404 NotFoundHandler. -/
inductive MuxResult (α : Type) where
  | handled (h : α) (pat : String)
  | redirect (loc : String)
  | notFound
deriving Repr, DecidableEq

/-- ServeMux.match: an exact hit in m wins, otherwise the longest matching
subtree pattern from es. -/
def muxMatch {α : Type} (mux : ServeMux α) (p : String) : Option (α × String) :=
  match mux.m.lookup p with
  | some h => some (h, p)
  | none => firstMatching mux.es p

/-- ServeMux.Handler on a cleaned path: the trailing-slash redirect check
first, then match, then NotFoundHandler. -/
def muxServe {α : Type} (mux : ServeMux α) (p : String) : MuxResult α :=
  if shouldRedirect mux p then MuxResult.redirect (p ++ "/")
  else
    match muxMatch mux p with
    | some (h, q) => MuxResult.handled h q
    | none => MuxResult.notFound

/-- Registration invariant of the ServeMux model: es holds exactly the
slash-terminated entries of m and is sorted by pattern length, longest
first. -/
def MuxInv {α : Type} (mux : ServeMux α) : Prop :=
  (∀ x, x ∈ mux.es ↔ x ∈ mux.m ∧ lastIsSlash x.1 = true) ∧
    mux.es.Pairwise (fun a b => b.1.length ≤ a.1.length)

/-- The three routes of the longest-prefix example in the specification. -/
def paths3 : List String := ["/", "/api/", "/api/v1/"]

/-- The mux those three routes register into. -/
def mux3 : ServeMux Nat := (registerPaths paths3).getD {}

/-- A site configured only through path-based routing, with no site-level
upstream fields at all. -/
def cfgPathsOnly : SiteConfig :=
  { domain := "example.com",
    proxy := { paths := [{ path := "/", upstream := "http://b" }] } }

/-- A site with no paths and no upstream configuration of any kind. -/
def cfgNoUpstream : SiteConfig := { domain := "bare.example" }

/-- A single-upstream site used to instantiate the timeout-guard theorem. -/
def cfgSingle : SiteConfig :=
  { domain := "example.com",
    proxy := { upstream := "http://localhost:3000" },
    timeouts := { read := 10, write := 5 } }

/-- A one-upstream round-robin balancer over a backend URL that carries no
base query. -/
def lbSingleB : LoadBalancer :=
  { upstreams := [{ scheme := "http", host := "b" }],
    algorithm := "round-robin", currentIndex := 0 }

/-- A request carrying the query string foo=1. -/
def reqFoo : Request :=
  { method := "GET", host := "example.com", path := "/p", rawQuery := "foo=1" }

/-- A transport oracle that always answers 200 with an empty body. -/
def rtOk200 : OutRequest → Except String UpstreamResponse :=
  fun _ => Except.ok { status := 200 }

/-- A transport oracle on which every attempt fails with connection
refused. -/
def rtRefused : OutRequest → Except String UpstreamResponse :=
  fun _ => Except.error "connection refused"

/-- A site carrying the site-level header X-A: 1. -/
def cfgSiteHeader : SiteConfig := { proxy := { headers := [("X-A", "1")] } }

/-- A route carrying the route-level header X-A: 2. -/
def pathRouteHeader : ProxyPath := { path := "/api/", headers := [("X-A", "2")] }

/-- The single-upstream site handler build that NewSiteHandler produces for
cfgSingle: a single-host proxy guarded by max(read, write) = 10 with message
"Request timeout". -/
def bSingle : SiteHandlerBuild :=
  SiteHandlerBuild.fallback
    (BuiltProxy.single { scheme := "http", host := "localhost:3000" }) 10
    "Request timeout"

theorem parseUpstreams_length (us : List String) (parsed : List URL)
    (h : parseUpstreams us = Except.ok parsed) : parsed.length = us.length := by
  induction us generalizing parsed with
  | nil => simp [parseUpstreams] at h; simp [← h]
  | cons u rest ih =>
    simp only [parseUpstreams] at h
    cases hp : parseURL u with
    | none => rw [hp] at h; cases h
    | some url =>
      rw [hp] at h
      cases hr : parseUpstreams rest with
      | error e => rw [hr] at h; cases h
      | ok tail =>
        rw [hr] at h
        simp [Except.map] at h
        simp [← h, ih tail hr]

theorem NewLoadBalancer_ok (us : List String) (alg : String) (lb : LoadBalancer)
    (h : NewLoadBalancer us alg = Except.ok lb) :
    parseUpstreams us = Except.ok lb.upstreams ∧ lb.algorithm = alg ∧
      lb.currentIndex = 0 ∧ lb.upstreams ≠ [] := by
  unfold NewLoadBalancer at h
  cases hr : parseUpstreams us with
  | error e => rw [hr] at h; cases h
  | ok parsed =>
    rw [hr] at h
    dsimp only at h
    by_cases hz : parsed.length = 0
    · rw [if_pos hz] at h; cases h
    · rw [if_neg hz] at h
      cases h
      refine ⟨rfl, rfl, rfl, ?_⟩
      simpa [List.length_eq_zero] using hz

theorem Next_roundRobin (lb : LoadBalancer) (now : Nat)
    (halg : lb.algorithm = "round-robin" ∨ lb.algorithm = "")
    (hne : lb.upstreams ≠ []) :
    lb.Next now =
      (lb.upstreams.get? (uint64 lb.currentIndex % lb.upstreams.length)).map
        (fun u => (u, { lb with currentIndex := uint64 (lb.currentIndex + 1) })) := by
  have hz : ¬ lb.upstreams.length = 0 := by simpa [List.length_eq_zero] using hne
  unfold LoadBalancer.Next
  rw [if_pos halg, if_neg hz]

theorem NextSeq_roundRobin (U : List URL) (alg : String) (now : Nat)
    (halg : alg = "round-robin" ∨ alg = "") (hne : U ≠ []) :
    ∀ k i, i < 2 ^ 64 → i + k ≤ 2 ^ 64 →
      LoadBalancer.NextSeq ⟨U, alg, i⟩ now k =
        some ((List.range k).map (fun j => U.getD ((i + j) % U.length) default),
              ⟨U, alg, (i + k) % 2 ^ 64⟩) := by
  have hn : 0 < U.length := List.length_pos.mpr hne
  intro k
  induction k with
  | zero =>
    intro i hi _
    simp only [LoadBalancer.NextSeq, List.range_zero, List.map_nil, Nat.add_zero]
    rw [Nat.mod_eq_of_lt hi]
  | succ k ih =>
    intro i hi hik
    have hstep := Next_roundRobin ⟨U, alg, i⟩ now halg hne
    have hmod : uint64 i = i := Nat.mod_eq_of_lt hi
    have hlt : i % U.length < U.length := Nat.mod_lt _ hn
    have h1 : (i + 1) % 2 ^ 64 < 2 ^ 64 := Nat.mod_lt _ (by norm_num)
    have h2 : (i + 1) % 2 ^ 64 + k ≤ 2 ^ 64 := by
      rcases Nat.lt_or_ge (i + 1) (2 ^ 64) with h | h
      · rw [Nat.mod_eq_of_lt h]; omega
      · have hk : k = 0 := by omega
        subst hk; omega
    have ihw := ih ((i + 1) % 2 ^ 64) h1 h2
    simp only [LoadBalancer.NextSeq]
    rw [hstep]
    dsimp only
    simp only [uint64]
    rw [Nat.mod_eq_of_lt hi, List.get?_eq_get hlt]
    simp only [Option.map_some']
    rw [ihw]
    simp only [Option.some.injEq, Prod.mk.injEq]
    refine ⟨?_, ?_⟩
    · rw [List.range_succ_eq_map, List.map_cons, List.map_map]
      congr 1
      · simp [List.getD, List.get?_eq_get hlt, List.getElem?_eq_getElem hlt]
      · apply List.map_congr_left
        intro j hj
        have hjk : j < k := List.mem_range.mp hj
        have hlt1 : i + 1 < 2 ^ 64 := by omega
        simp only [Function.comp_apply, Nat.mod_eq_of_lt hlt1]
        congr 2
        omega
    · rcases Nat.lt_or_ge (i + 1) (2 ^ 64) with h | h
      · rw [Nat.mod_eq_of_lt h]
        congr 2
        omega
      · have hik1 : i + 1 = 2 ^ 64 := by omega
        have hk0 : k = 0 := by omega
        subst hk0
        simp [hik1]

theorem range_mod_getD (U : List URL) (hne : U ≠ []) :
    (List.range (U.length + 1)).map (fun j => U.getD (j % U.length) default) =
      U ++ U.take 1 := by
  have hn : 0 < U.length := List.length_pos.mpr hne
  rw [List.range_succ, List.map_append, List.map_cons, List.map_nil]
  congr 1
  · apply List.ext_getElem
    · simp
    · intro m h1 h2
      simp only [List.getElem_map, List.getElem_range]
      rw [Nat.mod_eq_of_lt (by simpa using h1)]
      simp [List.getD, List.getElem?_eq_getElem h2]
  · rw [Nat.mod_self]
    cases U with
    | nil => exact absurd rfl hne
    | cons a t => simp [List.getD]

/-- C2: for a load balancer built by NewLoadBalancer over N upstream addresses
with the round-robin algorithm (N below the uint64 range, as for any Go
slice), N+1 consecutive sequential Next calls return the upstream list in
declaration order (each address exactly once in the first N calls, starting
from the first) followed by the first address again. -/
theorem roundRobin_cycle (us : List String) (lb : LoadBalancer) (now : Nat)
    (hlb : NewLoadBalancer us "round-robin" = Except.ok lb)
    (hsize : us.length < 2 ^ 64) :
    (lb.NextSeq now (lb.upstreams.length + 1)).map Prod.fst =
      some (lb.upstreams ++ lb.upstreams.take 1) := by
  obtain ⟨hparse, halg, hidx, hne⟩ := NewLoadBalancer_ok us "round-robin" lb hlb
  have hlen : lb.upstreams.length = us.length :=
    parseUpstreams_length us lb.upstreams hparse
  obtain ⟨U, alg0, i0⟩ := lb
  simp only at halg hidx hne hlen ⊢
  subst halg hidx
  have hseq := NextSeq_roundRobin U "round-robin" now (Or.inl rfl) hne
    (U.length + 1) 0 (by norm_num) (by omega)
  rw [hseq]
  simp only [Option.map_some', Nat.zero_add]
  rw [range_mod_getD U hne]

/-- Witness for roundRobin_cycle at three concrete upstreams. -/
theorem roundRobin_cycle_witness :
    ∃ lb, NewLoadBalancer ["http://a", "http://b", "http://c"] "round-robin" =
        Except.ok lb ∧
      (lb.NextSeq 0 (lb.upstreams.length + 1)).map Prod.fst =
        some (lb.upstreams ++ lb.upstreams.take 1) :=
  ⟨{ upstreams := [{ scheme := "http", host := "a" }, { scheme := "http", host := "b" },
       { scheme := "http", host := "c" }], algorithm := "round-robin", currentIndex := 0 },
   by rfl, roundRobin_cycle ["http://a", "http://b", "http://c"] _ 0 (by rfl) (by decide)⟩

theorem Next_some_mem (lb : LoadBalancer) (now : Nat) (hne : lb.upstreams ≠ []) :
    ∃ u lb1, lb.Next now = some (u, lb1) ∧ u ∈ lb.upstreams ∧
      lb1.upstreams = lb.upstreams := by
  have hn : 0 < lb.upstreams.length := List.length_pos.mpr hne
  have hz : ¬ lb.upstreams.length = 0 := by omega
  unfold LoadBalancer.Next
  by_cases h1 : lb.algorithm = "round-robin" ∨ lb.algorithm = ""
  · rw [if_pos h1, if_neg hz]
    have hlt : uint64 lb.currentIndex % lb.upstreams.length < lb.upstreams.length :=
      Nat.mod_lt _ hn
    rw [List.get?_eq_get hlt]
    exact ⟨_, _, rfl, List.get_mem _ _ hlt, rfl⟩
  · rw [if_neg h1]
    by_cases h2 : lb.algorithm = "random"
    · rw [if_pos h2, if_neg hz]
      have hlt : now % lb.upstreams.length < lb.upstreams.length := Nat.mod_lt _ hn
      rw [List.get?_eq_get hlt]
      exact ⟨_, _, rfl, List.get_mem _ _ hlt, rfl⟩
    · rw [if_neg h2, if_neg hz]
      have hlt : uint64 lb.currentIndex % lb.upstreams.length < lb.upstreams.length :=
        Nat.mod_lt _ hn
      rw [List.get?_eq_get hlt]
      exact ⟨_, _, rfl, List.get_mem _ _ hlt, rfl⟩

theorem NextSeq_safe (U : List URL) (hne : U ≠ []) :
    ∀ (k : Nat) (lb : LoadBalancer) (now : Nat), lb.upstreams = U →
      ∃ outs lbf, lb.NextSeq now k = some (outs, lbf) ∧ ∀ u ∈ outs, u ∈ U := by
  intro k
  induction k with
  | zero => intro lb now hU; exact ⟨[], lb, rfl, by simp⟩
  | succ k ih =>
    intro lb now hU
    obtain ⟨u, lb1, hnext, hmem, hU1⟩ := Next_some_mem lb now (by rw [hU]; exact hne)
    obtain ⟨outs, lbf, hseq, hmems⟩ := ih lb1 now (hU1.trans hU)
    refine ⟨u :: outs, lbf, ?_, ?_⟩
    · simp only [LoadBalancer.NextSeq, hnext, hseq]
    · intro v hv
      rcases List.mem_cons.mp hv with h | h
      · subst h; exact hU ▸ hmem
      · exact hmems v h

/-- C10: every load balancer successfully returned by NewLoadBalancer has a
non-empty upstream list, and any number of sequential Next calls under any
algorithm string (known or unknown) succeeds — the out-of-bounds /
modulo-by-zero branch is unreachable — always returning elements of the
upstream list. -/
theorem newLoadBalancer_next_safe (us : List String) (alg : String)
    (lb : LoadBalancer) (hlb : NewLoadBalancer us alg = Except.ok lb) :
    lb.upstreams ≠ [] ∧
      ∀ now k, ∃ outs lbf, lb.NextSeq now k = some (outs, lbf) ∧
        ∀ u ∈ outs, u ∈ lb.upstreams := by
  obtain ⟨-, -, -, hne⟩ := NewLoadBalancer_ok us alg lb hlb
  exact ⟨hne, fun now k => NextSeq_safe lb.upstreams hne k lb now rfl⟩

/-- Witness for newLoadBalancer_next_safe under an unknown algorithm string. -/
theorem newLoadBalancer_next_safe_witness :
    lbWeird.upstreams ≠ [] ∧
      ∀ now k, ∃ outs lbf, lbWeird.NextSeq now k = some (outs, lbf) ∧
        ∀ u ∈ outs, u ∈ lbWeird.upstreams :=
  newLoadBalancer_next_safe ["http://a"] "weird" lbWeird (by rfl)

/-- C1 (code-bug evaluation): the HostRouter of host/handler.go replies
404 Not Found even though the request host is present in the site table and
the matched handler would answer 200 "Example site" — the lookup result is
bound in an if-branch with an empty body and http.NotFound runs
unconditionally. -/
theorem hostRouter_always_404 :
    HostRouter exampleSites exampleRequest = httpNotFound ∧
      httpNotFound.status = 404 ∧
      ((exampleSites.lookup "example.com").map (fun h => h exampleRequest)) =
        some { status := 200, body := "Example site" } :=
  ⟨rfl, rfl, rfl⟩

/-- C3 (code-bug evaluation): forwarding GET /p?foo=1 to backend http://b
(a backend URL with no base query), the outbound request carries the
backend's scheme and host and the original path, but its query string is
empty — the request's query foo=1 is dropped, because the forwarder assigns
only the target's query whenever either query string is empty. -/
theorem forwardedQuery_dropped :
    ∃ res lb1 q, NewLoadBalancedProxy lbSingleB {} rtOk200 reqFoo 0 =
        some (res, lb1, [q]) ∧
      q.url.scheme = "http" ∧ q.url.host = "b" ∧ q.url.path = "/p" ∧
      reqFoo.rawQuery = "foo=1" ∧ q.url.rawQuery = "" := by
  refine ⟨_, _, _, rfl, rfl, rfl, rfl, rfl, rfl⟩

/-- C9 counterexample: a site whose only upstream configuration lives in a
path entry — the site-level upstream string and upstream list are both
empty — builds successfully, so NewSiteHandler does not return an error for
every site with neither a single upstream nor a non-empty upstream list. -/
theorem siteWithoutSiteUpstreams_builds :
    cfgPathsOnly.proxy.upstream = "" ∧ cfgPathsOnly.proxy.upstreams = [] ∧
      ∃ b, NewSiteHandler cfgPathsOnly = Except.ok b :=
  ⟨rfl, rfl, _, rfl⟩

/-- C9 amended: NewLoadBalancer with zero upstream addresses returns an
error; NewSiteHandler for a site with no configured paths and with neither a
single upstream nor a non-empty upstream list returns an error; and every
successfully built load balancer has a non-empty upstream list, so no
request-serving selection operates on an empty set. -/
theorem emptyUpstreams_rejected_at_build (alg : String) (cfg : SiteConfig)
    (hpaths : cfg.proxy.paths = []) (hups : cfg.proxy.upstreams = [])
    (hup : cfg.proxy.upstream = "") :
    NewLoadBalancer [] alg = Except.error "no valid upstreams provided" ∧
      NewSiteHandler cfg =
        Except.error ("no upstream or upstreams configured for " ++ cfg.domain) ∧
      ∀ us lb, NewLoadBalancer us alg = Except.ok lb → lb.upstreams ≠ [] := by
  refine ⟨rfl, ?_, fun us lb h => (NewLoadBalancer_ok us alg lb h).2.2.2⟩
  simp [NewSiteHandler, hpaths, hups, hup]

/-- Witness for emptyUpstreams_rejected_at_build on a bare site config. -/
theorem emptyUpstreams_rejected_at_build_witness :
    NewLoadBalancer [] "round-robin" =
        Except.error "no valid upstreams provided" ∧
      NewSiteHandler cfgNoUpstream =
        Except.error
          ("no upstream or upstreams configured for " ++ cfgNoUpstream.domain) ∧
      ∀ us lb, NewLoadBalancer us "round-robin" = Except.ok lb →
        lb.upstreams ≠ [] :=
  emptyUpstreams_rejected_at_build "round-robin" cfgNoUpstream rfl rfl rfl

/-- C5: when every outbound transport attempt fails, both load-balanced
forwarders write 502 Bad Gateway with body "Upstream error" to the client
and hand exactly one outbound request to the transport — no automatic
retry. -/
theorem transportFailure_502_oneAttempt (lb : LoadBalancer) (cfg : SiteConfig)
    (pathCfg : ProxyPath) (rt : OutRequest → Except String UpstreamResponse)
    (r : Request) (now : Nat) (hne : lb.upstreams ≠ [])
    (hfail : ∀ q, ∃ e, rt q = Except.error e) :
    (∃ lb1 atts, NewLoadBalancedProxy lb cfg rt r now =
        some ({ status := 502, body := "Upstream error" }, lb1, atts) ∧
      atts.length = 1) ∧
    ∃ lb1 atts, NewLoadBalancedProxyWithHeaders lb cfg pathCfg rt r now =
        some ({ status := 502, body := "Upstream error" }, lb1, atts) ∧
      atts.length = 1 := by
  obtain ⟨u, lb1, hnext, -, -⟩ := Next_some_mem lb now hne
  constructor
  · simp only [NewLoadBalancedProxy, hnext]
    obtain ⟨e, he⟩ := hfail _
    rw [he]
    exact ⟨lb1, _, rfl, rfl⟩
  · simp only [NewLoadBalancedProxyWithHeaders, hnext]
    obtain ⟨e, he⟩ := hfail _
    rw [he]
    exact ⟨lb1, _, rfl, rfl⟩

/-- Witness for transportFailure_502_oneAttempt against a transport that
refuses every connection. -/
theorem transportFailure_502_oneAttempt_witness :
    (∃ lb1 atts, NewLoadBalancedProxy lbSingleB {} rtRefused reqFoo 0 =
        some ({ status := 502, body := "Upstream error" }, lb1, atts) ∧
      atts.length = 1) ∧
    ∃ lb1 atts, NewLoadBalancedProxyWithHeaders lbSingleB {} {} rtRefused reqFoo 0 =
        some ({ status := 502, body := "Upstream error" }, lb1, atts) ∧
      atts.length = 1 :=
  transportFailure_502_oneAttempt lbSingleB {} {} rtRefused reqFoo 0
    (by decide) (fun q => ⟨"connection refused", rfl⟩)

theorem lookup_eq_none_of_not_mem {α : Type} (l : List (String × α))
    (k : String) (h : k ∉ l.map Prod.fst) : l.lookup k = none := by
  induction l with
  | nil => rfl
  | cons kv rest ih =>
    simp only [List.map_cons, List.mem_cons, not_or] at h
    simp only [List.lookup, beq_eq_false_iff_ne.mpr h.1, ih h.2]

theorem applyHeaders_lookup (pairs : List (String × String))
    (h : String → Option String) (k : String)
    (hn : (pairs.map Prod.fst).Nodup) :
    applyHeaders pairs h k = (pairs.lookup k).or (h k) := by
  induction pairs generalizing h with
  | nil => simp [applyHeaders, List.lookup]
  | cons kv rest ih =>
    simp only [List.map_cons, List.nodup_cons] at hn
    simp only [applyHeaders, List.foldl_cons] at *
    rw [ih (setHeader h kv.1 kv.2) hn.2]
    by_cases hk : k = kv.1
    · subst hk
      rw [lookup_eq_none_of_not_mem rest kv.1 hn.1]
      simp [List.lookup, setHeader]
    · simp [List.lookup, setHeader, hk, beq_eq_false_iff_ne.mpr hk]

/-- C6: on the load-balanced forwarder for a matched route, the site-level
headers are applied to the outbound request first and the route-level headers
second, each as an unconditional Header.Set overwrite, so for any header name
the outbound value is the route value when the route defines the name, else
the site value when the site defines it, else the original request value; the
Director of the single-upstream path branch applies the same order. -/
theorem routeHeaders_override_site (lb : LoadBalancer) (cfg : SiteConfig)
    (pathCfg : ProxyPath) (rt : OutRequest → Except String UpstreamResponse)
    (r : Request) (now : Nat) (hne : lb.upstreams ≠ [])
    (hnS : (cfg.proxy.headers.map Prod.fst).Nodup)
    (hnP : (pathCfg.headers.map Prod.fst).Nodup) :
    (∃ res lb1 q, NewLoadBalancedProxyWithHeaders lb cfg pathCfg rt r now =
        some (res, lb1, [q]) ∧
      ∀ k, q.headers k =
        (pathCfg.headers.lookup k).or
          ((cfg.proxy.headers.lookup k).or (r.headers k))) ∧
    ∀ k, singleUpstreamPathHeaders cfg pathCfg r.headers k =
      (pathCfg.headers.lookup k).or
        ((cfg.proxy.headers.lookup k).or (r.headers k)) := by
  have happ : ∀ k, applyHeaders pathCfg.headers
      (applyHeaders cfg.proxy.headers r.headers) k =
      (pathCfg.headers.lookup k).or
        ((cfg.proxy.headers.lookup k).or (r.headers k)) := by
    intro k
    rw [applyHeaders_lookup pathCfg.headers _ k hnP,
        applyHeaders_lookup cfg.proxy.headers _ k hnS]
  refine ⟨?_, happ⟩
  obtain ⟨u, lb1, hnext, -, -⟩ := Next_some_mem lb now hne
  simp only [NewLoadBalancedProxyWithHeaders, hnext]
  split
  · exact ⟨_, lb1, _, rfl, happ⟩
  · exact ⟨_, lb1, _, rfl, happ⟩

/-- Witness for routeHeaders_override_site with X-A: 1 at the site level and
X-A: 2 on the matched route. -/
theorem routeHeaders_override_site_witness :
    (∃ res lb1 q, NewLoadBalancedProxyWithHeaders lbSingleB cfgSiteHeader
        pathRouteHeader rtOk200 reqFoo 0 = some (res, lb1, [q]) ∧
      ∀ k, q.headers k =
        (pathRouteHeader.headers.lookup k).or
          ((cfgSiteHeader.proxy.headers.lookup k).or (reqFoo.headers k))) ∧
    ∀ k, singleUpstreamPathHeaders cfgSiteHeader pathRouteHeader reqFoo.headers k =
      (pathRouteHeader.headers.lookup k).or
        ((cfgSiteHeader.proxy.headers.lookup k).or (reqFoo.headers k)) :=
  routeHeaders_override_site lbSingleB cfgSiteHeader pathRouteHeader rtOk200
    reqFoo 0 (by decide) (by decide) (by decide)

theorem Max_eq_max (a b : Int) : Max a b = max a b := by
  unfold Max
  split <;> omega

theorem buildPathEntry_guard (cfg : SiteConfig) (i : Nat) (p : ProxyPath)
    (e : PathEntry) (h : buildPathEntry cfg i p = Except.ok e) :
    e.timeout = Max cfg.timeouts.read cfg.timeouts.write ∧
      e.timeoutMsg = "Request timeout" := by
  unfold buildPathEntry at h
  repeat' split at h
  all_goals cases h
  all_goals exact ⟨rfl, rfl⟩

theorem buildPathEntries_guard (cfg : SiteConfig) :
    ∀ (ps : List ProxyPath) (i : Nat) (entries : List PathEntry),
      buildPathEntries cfg ps i = Except.ok entries →
      ∀ e ∈ entries,
        e.timeout = Max cfg.timeouts.read cfg.timeouts.write ∧
          e.timeoutMsg = "Request timeout" := by
  intro ps
  induction ps with
  | nil =>
    intro i entries h e he
    simp only [buildPathEntries] at h
    cases h
    cases he
  | cons p rest ih =>
    intro i entries h e he
    simp only [buildPathEntries] at h
    cases hb : buildPathEntry cfg i p with
    | error e1 => rw [hb] at h; cases h
    | ok e1 =>
      rw [hb] at h
      cases hr : buildPathEntries cfg rest (i + 1) with
      | error e2 => rw [hr] at h; cases h
      | ok es =>
        rw [hr] at h
        cases h
        rcases List.mem_cons.mp he with h1 | h1
        · subst h1; exact buildPathEntry_guard cfg i p e hb
        · exact ih (i + 1) es hr e h1

/-- C4: every TimeoutHandler that NewSiteHandler wraps around a proxy — the
fallback proxy or each per-path proxy — uses the deadline
Max(readTimeout, writeTimeout), which equals the mathematical maximum of the
two, with message "Request timeout"; and the TimeoutHandler yields a
client-visible 503 with body "Request timeout" whenever the wrapped handler
takes longer than the deadline, and relays the handler's own response
unmodified when it finishes within the deadline. -/
theorem siteTimeouts_guard (cfg : SiteConfig) (b : SiteHandlerBuild)
    (hb : NewSiteHandler cfg = Except.ok b) :
    (∀ tm ∈ guardDeadlines b,
        tm.1 = max cfg.timeouts.read cfg.timeouts.write ∧
          tm.2 = "Request timeout") ∧
      ∀ (h : Request → Response × Int) (r : Request) (dt : Int),
        ((h r).2 > dt →
          TimeoutHandler h dt "Request timeout" r =
            { status := 503, body := "Request timeout" }) ∧
        ((h r).2 ≤ dt →
          TimeoutHandler h dt "Request timeout" r = (h r).1) := by
  constructor
  · intro tm htm
    rw [← Max_eq_max]
    unfold NewSiteHandler at hb
    by_cases h1 : cfg.proxy.paths ≠ []
    · rw [if_pos h1] at hb
      cases hes : buildPathEntries cfg cfg.proxy.paths 0 with
      | error e => rw [hes] at hb; cases hb
      | ok entries =>
        rw [hes] at hb
        cases hb
        simp only [guardDeadlines, List.mem_map] at htm
        obtain ⟨e, hmem, hetm⟩ := htm
        obtain ⟨ht, hmsg⟩ :=
          buildPathEntries_guard cfg cfg.proxy.paths 0 entries hes e hmem
        subst hetm
        exact ⟨ht, hmsg⟩
    · rw [if_neg h1] at hb
      by_cases h2 : cfg.proxy.upstreams ≠ []
      · rw [if_pos h2] at hb
        cases hlb : NewLoadBalancer cfg.proxy.upstreams
            (chooseAlgorithm cfg.proxy.loadBalance) with
        | error e => rw [hlb] at hb; cases hb
        | ok lb =>
          rw [hlb] at hb
          cases hb
          simp only [guardDeadlines, List.mem_singleton] at htm
          subst htm
          exact ⟨rfl, rfl⟩
      · rw [if_neg h2] at hb
        by_cases h3 : cfg.proxy.upstream ≠ ""
        · rw [if_pos h3] at hb
          cases hu : parseURL cfg.proxy.upstream with
          | none => rw [hu] at hb; cases hb
          | some target =>
            rw [hu] at hb
            cases hb
            simp only [guardDeadlines, List.mem_singleton] at htm
            subst htm
            exact ⟨rfl, rfl⟩
        · rw [if_neg h3] at hb
          cases hb
  · intro h r dt
    refine ⟨fun hgt => ?_, fun hle => ?_⟩
    · unfold TimeoutHandler
      rw [if_pos hgt]
    · unfold TimeoutHandler
      rw [if_neg (by omega)]

/-- Witness for siteTimeouts_guard on the single-upstream site with read 10
and write 5. -/
theorem siteTimeouts_guard_witness :
    (∀ tm ∈ guardDeadlines bSingle,
        tm.1 = max cfgSingle.timeouts.read cfgSingle.timeouts.write ∧
          tm.2 = "Request timeout") ∧
      ∀ (h : Request → Response × Int) (r : Request) (dt : Int),
        ((h r).2 > dt →
          TimeoutHandler h dt "Request timeout" r =
            { status := 503, body := "Request timeout" }) ∧
        ((h r).2 ≤ dt →
          TimeoutHandler h dt "Request timeout" r = (h r).1) :=
  siteTimeouts_guard cfgSingle bSingle (by rfl)

theorem lookup_some_mem {α : Type} (l : List (String × α)) (k : String) (v : α)
    (h : l.lookup k = some v) : (k, v) ∈ l := by
  induction l with
  | nil => cases h
  | cons kv rest ih =>
    obtain ⟨a, b⟩ := kv
    simp only [List.lookup] at h
    cases hk : (k == a) with
    | true =>
      rw [hk] at h
      simp only [Option.some.injEq] at h
      subst h
      rw [beq_iff_eq] at hk
      subst hk
      exact List.mem_cons_self _ _
    | false =>
      rw [hk] at h
      exact List.mem_cons_of_mem _ (ih h)

theorem lookup_isSome_iff {α : Type} (l : List (String × α)) (k : String) :
    (l.lookup k).isSome = true ↔ k ∈ l.map Prod.fst := by
  induction l with
  | nil => simp [List.lookup]
  | cons kv rest ih =>
    obtain ⟨a, b⟩ := kv
    simp only [List.lookup, List.map_cons, List.mem_cons]
    by_cases hk : k = a
    · subst hk
      simp
    · simp only [beq_eq_false_iff_ne.mpr hk]
      simp [ih, hk]

theorem appendSorted_mem {α : Type} (es : List (String × α)) (p : String)
    (h : α) (x : String × α) :
    x ∈ appendSorted es p h ↔ x ∈ es ∨ x = (p, h) := by
  induction es with
  | nil => simp [appendSorted]
  | cons qg rest ih =>
    obtain ⟨q, g⟩ := qg
    simp only [appendSorted]
    by_cases hlt : q.length < p.length
    · rw [if_pos hlt]
      simp only [List.mem_cons]
      tauto
    · rw [if_neg hlt]
      simp only [List.mem_cons, ih]
      tauto

theorem appendSorted_pairwise {α : Type} (es : List (String × α)) (p : String)
    (h : α) (hpw : es.Pairwise (fun a b => b.1.length ≤ a.1.length)) :
    (appendSorted es p h).Pairwise (fun a b => b.1.length ≤ a.1.length) := by
  induction es with
  | nil => simp [appendSorted]
  | cons qg rest ih =>
    obtain ⟨q, g⟩ := qg
    rw [List.pairwise_cons] at hpw
    simp only [appendSorted]
    by_cases hlt : q.length < p.length
    · rw [if_pos hlt, List.pairwise_cons]
      constructor
      · intro x hx
        rcases List.mem_cons.mp hx with h1 | h1
        · subst h1; exact le_of_lt hlt
        · exact le_trans (hpw.1 x h1) (le_of_lt hlt)
      · rw [List.pairwise_cons]
        exact hpw
    · rw [if_neg hlt, List.pairwise_cons]
      constructor
      · intro x hx
        rcases (appendSorted_mem rest p h x).mp hx with h1 | h1
        · exact hpw.1 x h1
        · subst h1
          exact Nat.le_of_not_lt hlt
      · exact ih hpw.2

theorem firstMatching_none {α : Type} (es : List (String × α)) (p : String)
    (h : firstMatching es p = none) :
    ∀ x ∈ es, x.1.data.isPrefixOf p.data = false := by
  induction es with
  | nil => simp
  | cons qg rest ih =>
    obtain ⟨q, g⟩ := qg
    simp only [firstMatching] at h
    cases hq : q.data.isPrefixOf p.data with
    | true => rw [hq] at h; simp at h
    | false =>
      rw [hq] at h
      simp at h
      intro x hx
      rcases List.mem_cons.mp hx with h1 | h1
      · subst h1; exact hq
      · exact ih h x h1

theorem firstMatching_some {α : Type} (es : List (String × α)) (p : String)
    (i : α) (q : String) (h : firstMatching es p = some (i, q))
    (hpw : es.Pairwise (fun a b => b.1.length ≤ a.1.length)) :
    (q, i) ∈ es ∧ q.data.isPrefixOf p.data = true ∧
      ∀ x ∈ es, x.1.data.isPrefixOf p.data = true → x.1.length ≤ q.length := by
  induction es with
  | nil => cases h
  | cons qg rest ih =>
    obtain ⟨q0, g0⟩ := qg
    rw [List.pairwise_cons] at hpw
    simp only [firstMatching] at h
    cases hq : q0.data.isPrefixOf p.data with
    | true =>
      rw [hq] at h
      simp only [if_true, Option.some.injEq, Prod.mk.injEq] at h
      obtain ⟨hi, hqq⟩ := h
      subst hi
      subst hqq
      refine ⟨List.mem_cons_self _ _, hq, ?_⟩
      intro x hx _
      rcases List.mem_cons.mp hx with h1 | h1
      · subst h1; exact le_refl _
      · exact hpw.1 x h1
    | false =>
      rw [hq] at h
      simp at h
      obtain ⟨hmem, hpre, hmax⟩ := ih h hpw.2
      refine ⟨List.mem_cons_of_mem _ hmem, hpre, ?_⟩
      intro x hx hxpre
      rcases List.mem_cons.mp hx with h1 | h1
      · subst h1
        rw [hq] at hxpre
        cases hxpre
      · exact hmax x h1 hxpre

theorem muxHandle_inv {α : Type} (mux mux1 : ServeMux α) (p : String) (h : α)
    (hinv : MuxInv mux) (hh : muxHandle mux p h = some mux1) :
    MuxInv mux1 ∧ mux1.m = (p, h) :: mux.m := by
  unfold muxHandle at hh
  by_cases h1 : p = ""
  · rw [if_pos h1] at hh; cases hh
  · rw [if_neg h1] at hh
    by_cases h2 : (mux.m.lookup p).isSome = true
    · rw [if_pos h2] at hh; cases hh
    · rw [if_neg h2] at hh
      cases hh
      refine ⟨⟨?_, ?_⟩, rfl⟩
      · intro x
        by_cases hs : lastIsSlash p = true
        · simp only [hs, if_true]
          have hxp : x = (p, h) → lastIsSlash x.1 = true := by
            rintro rfl; exact hs
          rw [appendSorted_mem, hinv.1 x]
          simp only [List.mem_cons]
          tauto
        · simp only [if_neg hs]
          rw [hinv.1 x]
          simp only [List.mem_cons]
          constructor
          · rintro ⟨hm, hsl⟩
            exact ⟨Or.inr hm, hsl⟩
          · rintro ⟨hm | hm, hsl⟩
            · subst hm
              exact absurd hsl hs
            · exact ⟨hm, hsl⟩
      · by_cases hs : lastIsSlash p = true
        · simp only [hs, if_true]
          exact appendSorted_pairwise _ _ _ hinv.2
        · simp only [if_neg hs]
          exact hinv.2

theorem registerPathsFrom_inv (ps : List String) :
    ∀ (i0 : Nat) (mux0 mux : ServeMux Nat), MuxInv mux0 →
      registerPathsFrom ps i0 mux0 = some mux →
      MuxInv mux ∧
        ∀ x : String × Nat, x ∈ mux.m ↔
          (x ∈ mux0.m ∨ ∃ j, ps.get? j = some x.1 ∧ x.2 = i0 + j) := by
  induction ps with
  | nil =>
    intro i0 mux0 mux hinv h
    simp only [registerPathsFrom] at h
    cases h
    exact ⟨hinv, fun x => by simp⟩
  | cons p rest ih =>
    intro i0 mux0 mux hinv h
    simp only [registerPathsFrom] at h
    cases hh : muxHandle mux0 p i0 with
    | none => rw [hh] at h; cases h
    | some mux1 =>
      rw [hh] at h
      obtain ⟨hinv1, hm1⟩ := muxHandle_inv mux0 mux1 p i0 hinv hh
      obtain ⟨hinvf, hmf⟩ := ih (i0 + 1) mux1 mux hinv1 h
      refine ⟨hinvf, fun x => ?_⟩
      obtain ⟨a, b⟩ := x
      rw [hmf (a, b), hm1]
      simp only [List.mem_cons]
      constructor
      · rintro ((heq | hx) | ⟨j, hj1, hj2⟩)
        · rw [Prod.mk.injEq] at heq
          exact Or.inr ⟨0, by simp [heq.1], by simp [heq.2]⟩
        · exact Or.inl hx
        · exact Or.inr ⟨j + 1, by simpa using hj1, by omega⟩
      · rintro (hx | ⟨j, hj1, hj2⟩)
        · exact Or.inl (Or.inr hx)
        · cases j with
          | zero =>
            refine Or.inl (Or.inl ?_)
            simp only [List.get?] at hj1
            rw [Prod.mk.injEq]
            cases hj1
            exact ⟨rfl, by omega⟩
          | succ j1 =>
            exact Or.inr ⟨j1, by simpa using hj1, by omega⟩

theorem registerPaths_keys (paths : List String) (mux : ServeMux Nat)
    (hreg : registerPaths paths = some mux) (k : String) :
    (mux.m.lookup k).isSome = true ↔ k ∈ paths := by
  obtain ⟨hinv, hm⟩ :=
    registerPathsFrom_inv paths 0 {} mux ⟨fun x => by simp, by simp⟩ hreg
  rw [lookup_isSome_iff]
  constructor
  · intro hk
    obtain ⟨x, hx, hxk⟩ := List.mem_map.mp hk
    rcases (hm x).mp hx with h0 | ⟨j, hj, -⟩
    · simp at h0
    · rw [hxk] at hj
      exact List.get?_mem hj
  · intro hk
    obtain ⟨j, hj⟩ := List.mem_iff_get?.mp hk
    have hmem : (k, j) ∈ mux.m := (hm (k, j)).mpr (Or.inr ⟨j, hj, by simp⟩)
    exact List.mem_map.mpr ⟨(k, j), hmem, rfl⟩

theorem shouldRedirect_iff (paths : List String) (mux : ServeMux Nat)
    (hreg : registerPaths paths = some mux) (p : String) :
    shouldRedirect mux p = true ↔
      p ∉ paths ∧ (p ++ "/") ∈ paths ∧ p ≠ "" ∧ lastIsSlash p = false := by
  have h1 := registerPaths_keys paths mux hreg p
  have h2 := registerPaths_keys paths mux hreg (p ++ "/")
  unfold shouldRedirect
  by_cases hp : (mux.m.lookup p).isSome = true
  · rw [if_pos hp]
    simp [h1.mp hp]
  · rw [if_neg hp]
    have hnp : p ∉ paths := fun hc => hp (h1.mpr hc)
    by_cases hpe : p = ""
    · rw [if_pos hpe]
      simp [hpe]
    · rw [if_neg hpe]
      by_cases hps : (mux.m.lookup (p ++ "/")).isSome = true
      · rw [if_pos hps]
        simp only [hnp, h2.mp hps, hpe, not_false_iff, true_and, ne_eq]
        cases lastIsSlash p <;> simp
      · rw [if_neg hps]
        have hnps : (p ++ "/") ∉ paths := fun hc => hps (h2.mpr hc)
        simp [hnps]

/-- C7 (amended): path dispatch follows the Go ServeMux semantics the site
handler registers its routes into.  For a site whose route paths all end in
"/" (with "/" acting as the catch-all): when the request path p is not itself
a registered route but p ++ "/" is (and p does not already end in "/"), the
dispatch is a 301 redirect to p ++ "/"; otherwise, when some route path is a
prefix of p, the request is handled by the registered route with the longest
such prefix; otherwise the dispatch is 404 Not Found. -/
theorem pathRouting_longestMatch (paths : List String) (mux : ServeMux Nat)
    (p : String) (hreg : registerPaths paths = some mux)
    (hslash : ∀ q ∈ paths, lastIsSlash q = true) :
    ((p ∉ paths ∧ (p ++ "/") ∈ paths ∧ p ≠ "" ∧ lastIsSlash p = false) →
        muxServe mux p = MuxResult.redirect (p ++ "/")) ∧
      (¬ (p ∉ paths ∧ (p ++ "/") ∈ paths ∧ p ≠ "" ∧ lastIsSlash p = false) →
        ((∃ q ∈ paths, q.data.isPrefixOf p.data = true) →
          ∃ i q, muxServe mux p = MuxResult.handled i q ∧
            paths.get? i = some q ∧ q.data.isPrefixOf p.data = true ∧
            ∀ q1 ∈ paths, q1.data.isPrefixOf p.data = true →
              q1.length ≤ q.length) ∧
        ((∀ q ∈ paths, q.data.isPrefixOf p.data = false) →
          muxServe mux p = MuxResult.notFound)) := by
  obtain ⟨hinv, hm⟩ :=
    registerPathsFrom_inv paths 0 {} mux ⟨fun x => by simp, by simp⟩ hreg
  have hsr := shouldRedirect_iff paths mux hreg p
  constructor
  · intro hred
    unfold muxServe
    rw [if_pos (hsr.mpr hred)]
  · intro hnored
    have hcond : ¬ (shouldRedirect mux p = true) := fun hcs =>
      absurd (hsr.mp hcs) hnored
    constructor
    · rintro ⟨q0, hq0mem, hq0pre⟩
      unfold muxServe
      rw [if_neg hcond]
      cases hlk : mux.m.lookup p with
      | some i =>
        have hpm : (p, i) ∈ mux.m := lookup_some_mem _ _ _ hlk
        rcases (hm (p, i)).mp hpm with h0 | ⟨j, hj, hj2⟩
        · simp at h0
        · simp only at hj2
          refine ⟨i, p, ?_, ?_, ?_, ?_⟩
          · simp only [muxMatch, hlk]
          · rw [hj2]
            simpa using hj
          · rw [ List.isPrefixOf_iff_prefix]
          · intro q1 hq1 hq1pre
            rw [ List.isPrefixOf_iff_prefix] at hq1pre
            exact hq1pre.length_le
      | none =>
        have hq0m : ∃ j0, (q0, j0) ∈ mux.m := by
          obtain ⟨j0, hj0⟩ := List.mem_iff_get?.mp hq0mem
          exact ⟨j0, (hm (q0, j0)).mpr (Or.inr ⟨j0, hj0, by simp⟩)⟩
        obtain ⟨j0, hj0m⟩ := hq0m
        have hq0es : (q0, j0) ∈ mux.es :=
          (hinv.1 (q0, j0)).mpr ⟨hj0m, hslash q0 hq0mem⟩
        cases hfm : firstMatching mux.es p with
        | none =>
          have := firstMatching_none mux.es p hfm (q0, j0) hq0es
          simp only at this
          rw [hq0pre] at this
          cases this
        | some iq =>
          obtain ⟨i, q⟩ := iq
          obtain ⟨hqes, hqpre, hqmax⟩ :=
            firstMatching_some mux.es p i q hfm hinv.2
          have hqm : (q, i) ∈ mux.m := ((hinv.1 (q, i)).mp hqes).1
          rcases (hm (q, i)).mp hqm with h0 | ⟨j, hj, hj2⟩
          · simp at h0
          · simp only at hj2
            refine ⟨i, q, ?_, ?_, hqpre, ?_⟩
            · simp only [muxMatch, hlk, hfm]
            · rw [hj2]
              simpa using hj
            · intro q1 hq1 hq1pre
              obtain ⟨j1, hj1⟩ := List.mem_iff_get?.mp hq1
              have hq1m : (q1, j1) ∈ mux.m :=
                (hm (q1, j1)).mpr (Or.inr ⟨j1, hj1, by simp⟩)
              have hq1es : (q1, j1) ∈ mux.es :=
                (hinv.1 (q1, j1)).mpr ⟨hq1m, hslash q1 hq1⟩
              exact hqmax (q1, j1) hq1es hq1pre
    · intro hnone
      unfold muxServe
      rw [if_neg hcond]
      cases hlk : mux.m.lookup p with
      | some i =>
        have hpm : (p, i) ∈ mux.m := lookup_some_mem _ _ _ hlk
        rcases (hm (p, i)).mp hpm with h0 | ⟨j, hj, -⟩
        · simp at h0
        · have hpp : p ∈ paths := List.get?_mem hj
          have := hnone p hpp
          rw [show (p.data.isPrefixOf p.data) = true by
            rw [ List.isPrefixOf_iff_prefix]] at this
          cases this
      | none =>
        cases hfm : firstMatching mux.es p with
        | none => simp only [muxMatch, hlk, hfm]
        | some iq =>
          obtain ⟨i, q⟩ := iq
          obtain ⟨hqes, hqpre, -⟩ :=
            firstMatching_some mux.es p i q hfm hinv.2
          have hqm : (q, i) ∈ mux.m := ((hinv.1 (q, i)).mp hqes).1
          rcases (hm (q, i)).mp hqm with h0 | ⟨j, hj, -⟩
          · simp at h0
          · have hqp : q ∈ paths := List.get?_mem hj
            have := hnone q hqp
            rw [hqpre] at this
            cases this

/-- C7 counterexample: with the single route /api (no trailing slash) and no
catch-all, the request path /api/x has /api as a matching route prefix, yet
the ServeMux dispatch the site handler builds yields 404 Not Found. -/
theorem exactRoute_no_subpath_match :
    (registerPaths ["/api"]).map (fun mux => muxServe mux "/api/x") =
        some MuxResult.notFound ∧
      ("/api").data.isPrefixOf ("/api/x").data = true :=
  ⟨rfl, rfl⟩

/-- Witness for pathRouting_longestMatch on the routes /, /api/, /api/v1/
with request path /api/v1/widgets. -/
theorem pathRouting_longestMatch_witness :
    ∃ i q, muxServe mux3 "/api/v1/widgets" = MuxResult.handled i q ∧
      paths3.get? i = some q ∧
      q.data.isPrefixOf ("/api/v1/widgets").data = true ∧
      ∀ q1 ∈ paths3, q1.data.isPrefixOf ("/api/v1/widgets").data = true →
        q1.length ≤ q.length :=
  ((pathRouting_longestMatch paths3 mux3 "/api/v1/widgets" (by rfl)
      (by decide)).2 (by decide)).1
    ⟨"/api/v1/", by decide, by decide⟩

end ReverseProxy
